import Mathlib

/-!
Verification development for the AnonCreds binding surface (`libanoncreds.h`)
and the credential-protocol core behind it.  The header contributes the exact
error-code taxonomy, the attribute-count bound and the entry-point signatures;
the behaviour of the core operations (issuance, presentation, verification,
revocation) is modelled from the system specification, since only the binding
header is part of the analysed sources.
-/

namespace AnonCreds

/-- Error codes, exactly as declared in `libanoncreds.h` lines 10-24. -/
inductive ErrorCode where
  | Success
  | Input
  | IOError
  | InvalidState
  | Unexpected
  | CredentialRevoked
  | InvalidUserRevocId
  | ProofRejected
  | RevocationRegistryFull
deriving DecidableEq, Repr

/-- The numeric value each error code carries in the C enum (`Success = 0`, ...,
`RevocationRegistryFull = 8`). -/
def ErrorCode.toNat : ErrorCode → Nat
  | .Success => 0
  | .Input => 1
  | .IOError => 2
  | .InvalidState => 3
  | .Unexpected => 4
  | .CredentialRevoked => 5
  | .InvalidUserRevocId => 6
  | .ProofRejected => 7
  | .RevocationRegistryFull => 8

/-- `MAX_ATTRIBUTES_COUNT` from `libanoncreds.h` line 8. -/
def MAX_ATTRIBUTES_COUNT : Nat := 125

/-- Injective pairing of two naturals (Cantor pairing), used as the abstract
combining primitive of the symbolic cryptography model. -/
def pairNat (a b : Nat) : Nat := (a + b) * (a + b + 1) / 2 + b

/-- Modelled from the spec: the order of the credential-signature field; the
real field modulus lives in the missing numeric/group layer. Attribute
encodings are "field-sized integers", i.e. reduced modulo this constant. -/
def fieldModulus : Nat := 2 ^ 255 - 19

/-- Modelled from the spec: deterministic hash of a raw string to a field-sized
integer, standing in for the missing hash-to-field primitive of the
numeric/group layer. -/
def hashToField (s : String) : Nat :=
  s.data.foldl (fun acc c => (acc * 257 + c.toNat + 1) % fieldModulus) 7

/-- Modelled from the spec: the per-value attribute encoding behind
`anoncreds_encode_credential_attributes` (implementation not in the analysed
sources).  A numeric raw value that already fits the field is kept as the
number itself; any other raw value is deterministically hashed to a
field-sized integer. -/
def encodeAttributeValue (raw : String) : Nat :=
  match raw.toNat? with
  | some n => if n < fieldModulus then n else hashToField raw
  | none => hashToField raw

/-- Modelled from the spec: `anoncreds_encode_credential_attributes` maps each
caller-supplied raw attribute value to its field-sized integer encoding. -/
def anoncreds_encode_credential_attributes (attrRawValues : List String) : List Nat :=
  attrRawValues.map encodeAttributeValue

/-- A schema: issuer identity, name, version and the ordered list of unique
attribute names. -/
structure Schema where
  name : String
  version : String
  issuerId : String
  attrNames : List String
deriving DecidableEq, Repr

/-- Modelled from the spec: the implementation behind `anoncreds_create_schema`
(not in the analysed sources).  Fails with `Input` when the attribute count
exceeds `MAX_ATTRIBUTES_COUNT` or the attribute names contain duplicates;
otherwise returns the schema. -/
def anoncreds_create_schema (schemaName schemaVersion issuerId : String)
    (attrNames : List String) : Except ErrorCode Schema :=
  if attrNames.length > MAX_ATTRIBUTES_COUNT then .error .Input
  else if attrNames.Nodup then .ok ⟨schemaName, schemaVersion, issuerId, attrNames⟩
  else .error .Input

/-- Modelled from the spec: abstract key derivation of the missing signature
scheme; maps an issuer private key to its public key, injectively. -/
def keyGen (sk : Nat) : Nat := 2 * sk + 1

/-- A CL-style signature, modelled symbolically: the private key it was made
with and the message it covers. -/
structure Signature where
  key : Nat
  message : Nat
deriving DecidableEq, Repr

/-- Modelled from the spec: signing in the missing signature scheme. -/
def signMessage (sk msg : Nat) : Signature := ⟨sk, msg⟩

/-- Modelled from the spec: signature verification in the missing signature
scheme — the algebraic check that the signature was produced by the private
key matching `pk` over exactly `msg`. -/
def checkSignature (pk msg : Nat) (sig : Signature) : Bool :=
  keyGen sig.key = pk && sig.message = msg

/-- Modelled from the spec: Pedersen-style commitment of the holder master
secret under a blinding factor (binding by injectivity of the pairing). -/
def commitSecret (masterSecret blinding : Nat) : Nat :=
  pairNat masterSecret blinding

/-- Modelled from the spec: folds the blinded commitment and the encoded
attribute values into the single message that gets signed. -/
def credentialMessage (commitment : Nat) (encodedValues : List Nat) : Nat :=
  encodedValues.foldl pairNat (pairNat commitment 0)

/-- A credential definition: schema reference, tag, issuer, revocation-support
flag, public key material, and the attribute names it covers (fixed at
creation from the schema). -/
structure CredentialDefinition where
  schemaId : String
  tag : String
  issuerId : String
  supportRevocation : Bool
  publicKey : Nat
  attrNames : List String
deriving DecidableEq, Repr

/-- The issuer-only private half of a credential definition. -/
structure CredentialDefinitionPrivate where
  privateKey : Nat
deriving DecidableEq, Repr

/-- Proof that the credential-definition public key was honestly generated. -/
structure KeyCorrectnessProof where
  keyImage : Nat
deriving DecidableEq, Repr

/-- Modelled from the spec: the implementation behind
`anoncreds_create_credential_definition` (not in the analysed sources).
Draws the private key from the supplied randomness seed and returns the
public definition, the private key and the key-correctness proof together. -/
def anoncreds_create_credential_definition (schemaId : String) (schema : Schema)
    (tag issuerId : String) (supportRevocation : Bool) (seed : Nat) :
    Except ErrorCode (CredentialDefinition × CredentialDefinitionPrivate × KeyCorrectnessProof) :=
  .ok (⟨schemaId, tag, issuerId, supportRevocation, keyGen seed, schema.attrNames⟩,
    ⟨seed⟩, ⟨keyGen seed⟩)

/-- An issuer-to-holder credential offer: schema id, definition id, nonce. -/
structure CredentialOffer where
  schemaId : String
  credDefId : String
  nonce : Nat
deriving DecidableEq, Repr

/-- Modelled from the spec: the implementation behind
`anoncreds_create_credential_offer` (not in the analysed sources). -/
def anoncreds_create_credential_offer (schemaId credDefId : String)
    (keyProof : KeyCorrectnessProof) (nonce : Nat) : Except ErrorCode CredentialOffer :=
  .ok ⟨schemaId, credDefId, nonce⟩

/-- The holder master secret (link secret), abstractly a field element. -/
structure MasterSecret where
  value : Nat
deriving DecidableEq, Repr

/-- Modelled from the spec: `anoncreds_create_master_secret` draws a fresh
holder secret from the supplied randomness seed. -/
def anoncreds_create_master_secret (seed : Nat) : Except ErrorCode MasterSecret :=
  .ok ⟨seed⟩

/-- The holder's blinded credential request: offer nonce plus the commitment
to the master secret. -/
structure CredentialRequest where
  nonce : Nat
  commitment : Nat
deriving DecidableEq, Repr

/-- Holder-private metadata retained from request creation: the blinding
factor needed to later unblind the issued credential. -/
structure CredentialRequestMetadata where
  masterSecretId : String
  blinding : Nat
deriving DecidableEq, Repr

/-- Modelled from the spec: the implementation behind
`anoncreds_create_credential_request` (not in the analysed sources).  Commits
to the master secret under a fresh blinding factor and retains that factor in
the holder-private metadata. -/
def anoncreds_create_credential_request (proverDid : String)
    (credDef : CredentialDefinition) (masterSecret : MasterSecret)
    (masterSecretId : String) (credOffer : CredentialOffer) (blindingSeed : Nat) :
    Except ErrorCode (CredentialRequest × CredentialRequestMetadata) :=
  .ok (⟨credOffer.nonce, commitSecret masterSecret.value blindingSeed⟩,
    ⟨masterSecretId, blindingSeed⟩)

/-- A signed credential: attribute values (raw and encoded), the blinded
commitment it binds and the issuer signature over both. -/
structure Credential where
  schemaId : String
  credDefId : String
  attrs : List (String × String)
  encoded : List Nat
  commitment : Nat
  sig : Signature
deriving DecidableEq, Repr

/-- Modelled from the spec: the implementation behind
`anoncreds_create_credential` (not in the analysed sources).  Validates the
attribute names against the schema recorded in the credential definition
(failing with `Input` on mismatch), encodes the raw values deterministically
and signs the commitment together with the encoded values. -/
def anoncreds_create_credential (credDef : CredentialDefinition)
    (credDefPrivate : CredentialDefinitionPrivate) (credOffer : CredentialOffer)
    (credRequest : CredentialRequest) (attrNames attrRawValues : List String) :
    Except ErrorCode Credential :=
  if attrNames ≠ credDef.attrNames then .error .Input
  else if attrRawValues.length ≠ attrNames.length then .error .Input
  else
    let encoded := anoncreds_encode_credential_attributes attrRawValues
    .ok ⟨credOffer.schemaId, credOffer.credDefId, attrNames.zip attrRawValues, encoded,
      credRequest.commitment,
      signMessage credDefPrivate.privateKey (credentialMessage credRequest.commitment encoded)⟩

/-- Modelled from the spec: the implementation behind
`anoncreds_process_credential` (not in the analysed sources).  Unblinds the
issued credential using the retained request metadata and master secret;
fails with `InvalidState` when the metadata and master secret do not match
the credential's commitment, or when a revocation registry definition is
expected (revocation-enabled definition) but missing. -/
def anoncreds_process_credential (cred : Credential)
    (credReqMetadata : CredentialRequestMetadata) (masterSecret : MasterSecret)
    (credDef : CredentialDefinition) (revRegDefPresent : Bool) :
    Except ErrorCode Credential :=
  if commitSecret masterSecret.value credReqMetadata.blinding ≠ cred.commitment then
    .error .InvalidState
  else if credDef.supportRevocation ∧ ¬ revRegDefPresent then .error .InvalidState
  else .ok cred

/-- A verifier's presentation request: nonce plus the attribute names that
must be revealed. -/
structure PresentationRequest where
  nonce : Nat
  requestedAttributes : List String
deriving DecidableEq, Repr

/-- One sub-proof of a presentation: the credential's identifiers, the
revealed attribute values, the encoded attribute values covered by the
signature proof, the commitment, and the symbolic proof of signature
knowledge. -/
structure SubProof where
  schemaId : String
  credDefId : String
  revealed : List (String × String)
  encoded : List Nat
  commitment : Nat
  sig : Signature
deriving DecidableEq, Repr

/-- A presentation: the request nonce it answers and its sub-proofs. -/
structure Presentation where
  nonce : Nat
  subProofs : List SubProof
deriving DecidableEq, Repr

/-- Modelled from the spec: the implementation behind
`anoncreds_create_presentation` (not in the analysed sources).  Fails with
`Input` when a requested attribute is satisfied by no supplied credential;
otherwise builds one sub-proof per credential, revealing exactly the
requested attributes. -/
def anoncreds_create_presentation (presReq : PresentationRequest)
    (credentials : List Credential) (masterSecret : MasterSecret) :
    Except ErrorCode Presentation :=
  if presReq.requestedAttributes.all
      (fun n => credentials.any (fun c => c.attrs.any (fun p => p.1 == n))) then
    .ok ⟨presReq.nonce, credentials.map (fun c =>
      ⟨c.schemaId, c.credDefId,
        c.attrs.filter (fun p => presReq.requestedAttributes.contains p.1),
        c.encoded, c.commitment, c.sig⟩)⟩
  else .error .Input

/-- First index of an attribute name in a schema's attribute list. -/
def firstIdx : List String → String → Option Nat
  | [], _ => none
  | x :: xs, n => if x = n then some 0 else (firstIdx xs n).map (· + 1)

/-- Modelled from the spec: the verifier's per-revealed-attribute check — the
revealed raw value must re-encode to the encoded value the signature proof
covers at that attribute's schema position. -/
def checkRevealed (schemaAttrs : List String) (encoded : List Nat)
    (revealed : List (String × String)) : Bool :=
  revealed.all (fun p =>
    match firstIdx schemaAttrs p.1 with
    | some i => encoded.get? i == some (encodeAttributeValue p.2)
    | none => false)

/-- Modelled from the spec: the verifier's checks for one sub-proof against
the resolved schema and credential definition — the signature proof must
verify under the definition's public key over the commitment and encoded
values, and every revealed value must match its encoding. -/
def checkSubProof (schema : Schema) (credDef : CredentialDefinition)
    (sp : SubProof) : Bool :=
  checkSignature credDef.publicKey (credentialMessage sp.commitment sp.encoded) sp.sig
    && checkRevealed schema.attrNames sp.encoded sp.revealed

/-- Look up an object by identifier in a caller-supplied id/object list. -/
def lookupById {α : Type} (l : List (String × α)) (id : String) : Option α :=
  (l.find? (fun p => p.1 == id)).map Prod.snd

/-- Modelled from the spec: the verifier's walk over the sub-proofs; a missing
referenced schema or credential definition is a malformed input (`Input`
error), while any failing cryptographic check only turns the verdict false. -/
def verifySubProofs (schemas : List (String × Schema))
    (credDefs : List (String × CredentialDefinition)) :
    List SubProof → Except ErrorCode Bool
  | [] => .ok true
  | sp :: rest =>
    match lookupById schemas sp.schemaId, lookupById credDefs sp.credDefId with
    | some s, some cd =>
      match verifySubProofs schemas credDefs rest with
      | .ok b => .ok (checkSubProof s cd sp && b)
      | .error e => .error e
    | _, _ => .error .Input

/-- Modelled from the spec: the implementation behind
`anoncreds_verify_presentation` (not in the analysed sources).  Resolves the
referenced schemas and credential definitions (missing ids are malformed
input), re-runs every sub-proof's algebraic check and the nonce check, and
reports the verdict as a boolean. -/
def anoncreds_verify_presentation (presentation : Presentation)
    (presReq : PresentationRequest) (schemas : List (String × Schema))
    (credDefs : List (String × CredentialDefinition)) : Except ErrorCode Bool :=
  match verifySubProofs schemas credDefs presentation.subProofs with
  | .ok b => .ok ((presentation.nonce == presReq.nonce) && b)
  | .error e => .error e

/-- A revocation registry definition: accumulator public parameters with the
bounded capacity `maxCredNum`. -/
structure RevocationRegistryDefinition where
  credDefId : String
  tag : String
  maxCredNum : Nat
deriving DecidableEq, Repr

/-- Modelled from the spec: the accumulator value over an issued/revoked index
assignment, standing in for the missing bilinear-map accumulator of the
numeric/group layer (injective in the index sets it accumulates). -/
def accumValue (issued revoked : Finset Nat) : Nat :=
  pairNat ((issued.sort (· ≤ ·)).foldl pairNat 0) ((revoked.sort (· ≤ ·)).foldl pairNat 1)

/-- A revocation registry snapshot: bit-state per index (issued/revoked) plus
the current accumulator value. -/
structure RevocationRegistry where
  issued : Finset Nat
  revoked : Finset Nat
  accum : Nat
deriving DecidableEq

/-- A revocation registry delta: the indices newly issued and newly revoked
between two accumulator states, plus the resulting accumulator value (absent
in the no-op delta). -/
structure RevocationRegistryDelta where
  issued : Finset Nat
  revoked : Finset Nat
  accum : Option Nat
deriving DecidableEq

/-- The no-op revocation registry delta. -/
def emptyDelta : RevocationRegistryDelta := ⟨∅, ∅, none⟩

/-- Modelled from the spec: the implementation behind
`anoncreds_merge_revocation_registry_deltas` (not in the analysed sources).
Applies the second delta after the first: a later issue overrides an earlier
revoke and vice versa, and the later accumulator value wins. -/
def anoncreds_merge_revocation_registry_deltas (d1 d2 : RevocationRegistryDelta) :
    RevocationRegistryDelta :=
  ⟨(d1.issued \ d2.revoked) ∪ d2.issued, (d1.revoked \ d2.issued) ∪ d2.revoked,
    d2.accum.or d1.accum⟩

/-- Modelled from the spec: the implementation behind
`anoncreds_update_revocation_registry` (not in the analysed sources).  Batch
variant of registry update: fails with `RevocationRegistryFull` when the
issuance would exceed the registry capacity, otherwise returns the new
registry snapshot together with the delta from the old one. -/
def updateRevocationRegistry (revRegDef : RevocationRegistryDefinition)
    (revReg : RevocationRegistry) (issued revoked : Finset Nat) :
    Except ErrorCode (RevocationRegistry × RevocationRegistryDelta) :=
  if (revReg.issued ∪ issued).card > revRegDef.maxCredNum then
    .error .RevocationRegistryFull
  else
    let newIssued := revReg.issued ∪ issued
    let newRevoked := (revReg.revoked \ issued) ∪ revoked
    .ok (⟨newIssued, newRevoked, accumValue newIssued newRevoked⟩,
      ⟨issued, revoked, some (accumValue newIssued newRevoked)⟩)

/-- Modelled from the spec: the implementation behind
`anoncreds_revoke_credential` (not in the analysed sources).  Marks one slot
revoked and returns the new registry snapshot and delta; fails with
`InvalidUserRevocId` when the index was never issued or is already revoked. -/
def revokeCredential (revRegDef : RevocationRegistryDefinition)
    (revReg : RevocationRegistry) (credRevIdx : Nat) :
    Except ErrorCode (RevocationRegistry × RevocationRegistryDelta) :=
  if credRevIdx ∈ revReg.issued ∧ credRevIdx ∉ revReg.revoked then
    let newRevoked := revReg.revoked ∪ {credRevIdx}
    .ok (⟨revReg.issued, newRevoked, accumValue revReg.issued newRevoked⟩,
      ⟨∅, {credRevIdx}, some (accumValue revReg.issued newRevoked)⟩)
  else .error .InvalidUserRevocId

/-- A holder's revocation state: the credential index and its non-revocation
witness against a specific accumulator snapshot.  The witness is modelled as
the set of revoked indices the witness has been updated against (all revoked
slots other than the holder's own). -/
structure RevocationState where
  index : Nat
  witness : Finset Nat
deriving DecidableEq

/-- Modelled from the spec: the from-scratch computation of a holder's
non-revocation witness against a target registry snapshot. -/
def revocationStateFromScratch (targetList : RevocationRegistry) (idx : Nat) :
    RevocationState :=
  ⟨idx, targetList.revoked.erase idx⟩

/-- Modelled from the spec: the incremental witness update — removes from the
old witness the indices un-revoked since the old snapshot and folds in the
newly revoked ones. -/
def updateRevocationStateWitness (oldState : RevocationState)
    (oldList targetList : RevocationRegistry) : RevocationState :=
  ⟨oldState.index,
    (oldState.witness \ (oldList.revoked \ targetList.revoked)) ∪
      ((targetList.revoked \ oldList.revoked).erase oldState.index)⟩

/-- Modelled from the spec: the implementation behind
`anoncreds_create_or_update_revocation_state` (not in the analysed sources).
With a prior state and prior snapshot it takes the incremental path;
otherwise it computes the witness from scratch against the target snapshot. -/
def anoncreds_create_or_update_revocation_state
    (revRegDef : RevocationRegistryDefinition) (revRegList : RevocationRegistry)
    (revRegIndex : Nat) (revState : Option RevocationState)
    (oldRevRegList : Option RevocationRegistry) : Except ErrorCode RevocationState :=
  match revState, oldRevRegList with
  | some st, some oldList => .ok (updateRevocationStateWitness st oldList revRegList)
  | _, _ => .ok (revocationStateFromScratch revRegList revRegIndex)

/-- The canonical JSON exchange format every entity serializes to. -/
inductive JsonVal where
  | num (n : Nat)
  | str (s : String)
  | arr (items : List JsonVal)

/-- JSON encoding of a list of strings. -/
def jsonOfStrList (l : List String) : JsonVal := .arr (l.map .str)

/-- Decoder for a list of strings inside a JSON array. -/
def strListOfItems : List JsonVal → Option (List String)
  | [] => some []
  | .str s :: rest => (strListOfItems rest).map (s :: ·)
  | _ => none

/-- JSON encoding of a list of naturals. -/
def jsonOfNatList (l : List Nat) : JsonVal := .arr (l.map .num)

/-- Decoder for a list of naturals inside a JSON array. -/
def natListOfItems : List JsonVal → Option (List Nat)
  | [] => some []
  | .num n :: rest => (natListOfItems rest).map (n :: ·)
  | _ => none

/-- JSON encoding of name/value string pairs (e.g. credential attributes). -/
def jsonOfPairList (l : List (String × String)) : JsonVal :=
  .arr (l.map (fun p => .arr [.str p.1, .str p.2]))

/-- Decoder for name/value string pairs inside a JSON array. -/
def pairListOfItems : List JsonVal → Option (List (String × String))
  | [] => some []
  | .arr [.str a, .str b] :: rest => (pairListOfItems rest).map ((a, b) :: ·)
  | _ => none

/-- JSON encoding of a finite index set (canonical: sorted ascending). -/
def jsonOfFinset (s : Finset Nat) : JsonVal := jsonOfNatList (s.sort (· ≤ ·))

/-- Decoder for a finite index set. -/
def finsetOfJson : JsonVal → Option (Finset Nat)
  | .arr items => (natListOfItems items).map List.toFinset
  | _ => none

/-- JSON encoding of a signature. -/
def jsonOfSignature (sig : Signature) : JsonVal := .arr [.num sig.key, .num sig.message]

/-- Decoder for a signature. -/
def signatureOfJson : JsonVal → Option Signature
  | .arr [.num k, .num m] => some ⟨k, m⟩
  | _ => none

/-- JSON encoding of one presentation sub-proof. -/
def jsonOfSubProof (sp : SubProof) : JsonVal :=
  .arr [.str sp.schemaId, .str sp.credDefId, jsonOfPairList sp.revealed,
    jsonOfNatList sp.encoded, .num sp.commitment, jsonOfSignature sp.sig]

/-- Decoder for one presentation sub-proof. -/
def subProofOfJson : JsonVal → Option SubProof
  | .arr [.str sid, .str cdid, .arr revItems, .arr encItems, .num c, sigJ] =>
    match pairListOfItems revItems, natListOfItems encItems, signatureOfJson sigJ with
    | some rev, some enc, some sig => some ⟨sid, cdid, rev, enc, c, sig⟩
    | _, _, _ => none
  | _ => none

/-- Decoder for the list of sub-proofs of a presentation. -/
def subProofListOfItems : List JsonVal → Option (List SubProof)
  | [] => some []
  | j :: rest =>
    match subProofOfJson j with
    | some sp => (subProofListOfItems rest).map (sp :: ·)
    | none => none

/-- The sum of all entity kinds the binding exchanges through handles. -/
inductive AnyObject where
  | schema (s : Schema)
  | credentialDefinition (cd : CredentialDefinition)
  | credentialDefinitionPrivate (cdp : CredentialDefinitionPrivate)
  | keyCorrectnessProof (kp : KeyCorrectnessProof)
  | credentialOffer (o : CredentialOffer)
  | masterSecret (ms : MasterSecret)
  | credentialRequest (r : CredentialRequest)
  | credentialRequestMetadata (m : CredentialRequestMetadata)
  | credential (c : Credential)
  | presentationRequest (pr : PresentationRequest)
  | presentation (p : Presentation)
  | revocationRegistryDefinition (rd : RevocationRegistryDefinition)
  | revocationRegistry (r : RevocationRegistry)
  | revocationRegistryDelta (d : RevocationRegistryDelta)
  | revocationState (st : RevocationState)
deriving DecidableEq

/-- Modelled from the spec: the implementation behind
`anoncreds_object_get_json` (not in the analysed sources) — the canonical
JSON serialization of every entity, used to cross the binding boundary. -/
def anoncreds_object_get_json : AnyObject → JsonVal
  | .schema s => .arr [.str "schema", .str s.name, .str s.version, .str s.issuerId,
      jsonOfStrList s.attrNames]
  | .credentialDefinition cd => .arr [.str "credDef", .str cd.schemaId, .str cd.tag,
      .str cd.issuerId, .num (if cd.supportRevocation then 1 else 0), .num cd.publicKey,
      jsonOfStrList cd.attrNames]
  | .credentialDefinitionPrivate cdp => .arr [.str "credDefPriv", .num cdp.privateKey]
  | .keyCorrectnessProof kp => .arr [.str "keyProof", .num kp.keyImage]
  | .credentialOffer o => .arr [.str "credOffer", .str o.schemaId, .str o.credDefId,
      .num o.nonce]
  | .masterSecret ms => .arr [.str "masterSecret", .num ms.value]
  | .credentialRequest r => .arr [.str "credReq", .num r.nonce, .num r.commitment]
  | .credentialRequestMetadata m => .arr [.str "credReqMeta", .str m.masterSecretId,
      .num m.blinding]
  | .credential c => .arr [.str "credential", .str c.schemaId, .str c.credDefId,
      jsonOfPairList c.attrs, jsonOfNatList c.encoded, .num c.commitment,
      jsonOfSignature c.sig]
  | .presentationRequest pr => .arr [.str "presReq", .num pr.nonce,
      jsonOfStrList pr.requestedAttributes]
  | .presentation p => .arr [.str "presentation", .num p.nonce,
      .arr (p.subProofs.map jsonOfSubProof)]
  | .revocationRegistryDefinition rd => .arr [.str "revRegDef", .str rd.credDefId,
      .str rd.tag, .num rd.maxCredNum]
  | .revocationRegistry r => .arr [.str "revReg", jsonOfFinset r.issued,
      jsonOfFinset r.revoked, .num r.accum]
  | .revocationRegistryDelta d => .arr [.str "revRegDelta", jsonOfFinset d.issued,
      jsonOfFinset d.revoked,
      match d.accum with | some a => .arr [.num a] | none => .arr []]
  | .revocationState st => .arr [.str "revState", .num st.index, jsonOfFinset st.witness]

/-- Decoder for the `schema` payload. -/
def decodeSchema : List JsonVal → Option AnyObject
  | [.str n, .str v, .str iss, .arr attrItems] =>
    (strListOfItems attrItems).map (fun attrs => .schema ⟨n, v, iss, attrs⟩)
  | _ => none

/-- Decoder for the `credDef` payload. -/
def decodeCredDef : List JsonVal → Option AnyObject
  | [.str sid, .str tag, .str iss, .num revFlag, .num pk, .arr attrItems] =>
    (strListOfItems attrItems).map (fun attrs =>
      .credentialDefinition ⟨sid, tag, iss, revFlag == 1, pk, attrs⟩)
  | _ => none

/-- Decoder for the `credDefPriv` payload. -/
def decodeCredDefPriv : List JsonVal → Option AnyObject
  | [.num sk] => some (.credentialDefinitionPrivate ⟨sk⟩)
  | _ => none

/-- Decoder for the `keyProof` payload. -/
def decodeKeyProof : List JsonVal → Option AnyObject
  | [.num ki] => some (.keyCorrectnessProof ⟨ki⟩)
  | _ => none

/-- Decoder for the `credOffer` payload. -/
def decodeCredOffer : List JsonVal → Option AnyObject
  | [.str sid, .str cdid, .num nonce] => some (.credentialOffer ⟨sid, cdid, nonce⟩)
  | _ => none

/-- Decoder for the `masterSecret` payload. -/
def decodeMasterSecret : List JsonVal → Option AnyObject
  | [.num v] => some (.masterSecret ⟨v⟩)
  | _ => none

/-- Decoder for the `credReq` payload. -/
def decodeCredReq : List JsonVal → Option AnyObject
  | [.num nonce, .num c] => some (.credentialRequest ⟨nonce, c⟩)
  | _ => none

/-- Decoder for the `credReqMeta` payload. -/
def decodeCredReqMeta : List JsonVal → Option AnyObject
  | [.str msid, .num b] => some (.credentialRequestMetadata ⟨msid, b⟩)
  | _ => none

/-- Decoder for the `credential` payload. -/
def decodeCredential : List JsonVal → Option AnyObject
  | [.str sid, .str cdid, .arr attrItems, .arr encItems, .num c, sigJ] =>
    match pairListOfItems attrItems, natListOfItems encItems, signatureOfJson sigJ with
    | some attrs, some enc, some sig =>
      some (.credential ⟨sid, cdid, attrs, enc, c, sig⟩)
    | _, _, _ => none
  | _ => none

/-- Decoder for the `presReq` payload. -/
def decodePresReq : List JsonVal → Option AnyObject
  | [.num nonce, .arr attrItems] =>
    (strListOfItems attrItems).map (fun attrs => .presentationRequest ⟨nonce, attrs⟩)
  | _ => none

/-- Decoder for the `presentation` payload. -/
def decodePresentation : List JsonVal → Option AnyObject
  | [.num nonce, .arr spItems] =>
    (subProofListOfItems spItems).map (fun sps => .presentation ⟨nonce, sps⟩)
  | _ => none

/-- Decoder for the `revRegDef` payload. -/
def decodeRevRegDef : List JsonVal → Option AnyObject
  | [.str cdid, .str tag, .num m] => some (.revocationRegistryDefinition ⟨cdid, tag, m⟩)
  | _ => none

/-- Decoder for the `revReg` payload. -/
def decodeRevReg : List JsonVal → Option AnyObject
  | [issJ, revJ, .num a] =>
    match finsetOfJson issJ, finsetOfJson revJ with
    | some iss, some rev => some (.revocationRegistry ⟨iss, rev, a⟩)
    | _, _ => none
  | _ => none

/-- Decoder for the `revRegDelta` payload. -/
def decodeRevRegDelta : List JsonVal → Option AnyObject
  | [issJ, revJ, .arr accItems] =>
    match finsetOfJson issJ, finsetOfJson revJ, accItems with
    | some iss, some rev, [.num a] => some (.revocationRegistryDelta ⟨iss, rev, some a⟩)
    | some iss, some rev, [] => some (.revocationRegistryDelta ⟨iss, rev, none⟩)
    | _, _, _ => none
  | _ => none

/-- Decoder for the `revState` payload. -/
def decodeRevState : List JsonVal → Option AnyObject
  | [.num i, wJ] => (finsetOfJson wJ).map (fun w => .revocationState ⟨i, w⟩)
  | _ => none

/-- Modelled from the spec: the parser of the canonical JSON exchange format
back into an entity (the `anoncreds_*_from_json` side of the boundary, not in
the analysed sources), dispatching on the leading type tag. -/
def objectFromJson : JsonVal → Option AnyObject
  | .arr (.str tag :: rest) =>
    if tag = "schema" then decodeSchema rest
    else if tag = "credDef" then decodeCredDef rest
    else if tag = "credDefPriv" then decodeCredDefPriv rest
    else if tag = "keyProof" then decodeKeyProof rest
    else if tag = "credOffer" then decodeCredOffer rest
    else if tag = "masterSecret" then decodeMasterSecret rest
    else if tag = "credReq" then decodeCredReq rest
    else if tag = "credReqMeta" then decodeCredReqMeta rest
    else if tag = "credential" then decodeCredential rest
    else if tag = "presReq" then decodePresReq rest
    else if tag = "presentation" then decodePresentation rest
    else if tag = "revRegDef" then decodeRevRegDef rest
    else if tag = "revReg" then decodeRevReg rest
    else if tag = "revRegDelta" then decodeRevRegDelta rest
    else if tag = "revState" then decodeRevState rest
    else none
  | _ => none

/-- The binding's object-handle table: a handle is an index into the table,
and every produced result is appended as a fresh entry. -/
abbrev Store := List AnyObject

/-- Modelled from the spec: the binding entry point `anoncreds_revoke_credential`
(implementation not in the analysed sources).  Resolves the definition and
registry handles, runs the core revocation, and returns the new registry and
delta as freshly appended objects via out-parameters; the caller's input
objects stay in place. -/
def anoncreds_revoke_credential (store : Store) (revRegDefH revRegH : Nat)
    (credRevIdx : Nat) (tailsPath : String) :
    ErrorCode × Store × Option Nat × Option Nat :=
  match store.get? revRegDefH, store.get? revRegH with
  | some (.revocationRegistryDefinition rd), some (.revocationRegistry r) =>
    match revokeCredential rd r credRevIdx with
    | .ok (r2, d2) =>
      (.Success, store ++ [.revocationRegistry r2, .revocationRegistryDelta d2],
        some store.length, some (store.length + 1))
    | .error e => (e, store, none, none)
  | _, _ => (.Input, store, none, none)

/-- Modelled from the spec: the binding entry point
`anoncreds_update_revocation_registry` (implementation not in the analysed
sources).  Resolves the handles, runs the core batch update, appends the new
registry and delta as fresh objects and hands their handles back through the
out-parameters, leaving every existing entry untouched. -/
def anoncreds_update_revocation_registry (store : Store) (revRegDefH revRegH : Nat)
    (issued revoked : List Nat) (tailsPath : String) :
    ErrorCode × Store × Option Nat × Option Nat :=
  match store.get? revRegDefH, store.get? revRegH with
  | some (.revocationRegistryDefinition rd), some (.revocationRegistry r) =>
    match updateRevocationRegistry rd r issued.toFinset revoked.toFinset with
    | .ok (r2, d2) =>
      (.Success, store ++ [.revocationRegistry r2, .revocationRegistryDelta d2],
        some store.length, some (store.length + 1))
    | .error e => (e, store, none, none)
  | _, _ => (.Input, store, none, none)

/-- The composed honest protocol run: the issuer creates schema, definition,
offer; the holder creates master secret and blinded request; the issuer
issues the credential; the holder processes it and builds a presentation
revealing all attributes; the verifier checks it.  Returns the verification
verdict together with the revealed attribute values of each sub-proof. -/
def honestPipeline (schemaName schemaVersion issuerId schemaId credDefId tag msId
    proverDid : String) (attrNames attrVals : List String)
    (issuerSeed msSeed blindSeed offerNonce presNonce : Nat) :
    Except ErrorCode (Bool × List (List (String × String))) := do
  let schema ← anoncreds_create_schema schemaName schemaVersion issuerId attrNames
  let (cd, cdp, kp) ← anoncreds_create_credential_definition schemaId schema tag
    issuerId false issuerSeed
  let offer ← anoncreds_create_credential_offer schemaId credDefId kp offerNonce
  let ms ← anoncreds_create_master_secret msSeed
  let (credReq, credReqMeta) ← anoncreds_create_credential_request proverDid cd ms
    msId offer blindSeed
  let cred ← anoncreds_create_credential cd cdp offer credReq attrNames attrVals
  let cred2 ← anoncreds_process_credential cred credReqMeta ms cd false
  let presReq : PresentationRequest := ⟨presNonce, attrNames⟩
  let pres ← anoncreds_create_presentation presReq [cred2] ms
  let verdict ← anoncreds_verify_presentation pres presReq
    [(schemaId, schema)] [(credDefId, cd)]
  pure (verdict, pres.subProofs.map SubProof.revealed)

/-- Well-formed verifier inputs: every schema and credential definition a
sub-proof references is present in the caller-supplied id lists. -/
def wellFormedVerifierInputs (p : Presentation) (schemas : List (String × Schema))
    (credDefs : List (String × CredentialDefinition)) : Prop :=
  ∀ sp ∈ p.subProofs, (lookupById schemas sp.schemaId).isSome ∧
    (lookupById credDefs sp.credDefId).isSome

/-- A concrete schema used to exercise the theorems on closed inputs. -/
def demoSchema : Schema := ⟨"degree", "1.0", "iss", ["name", "age"]⟩

/-- A concrete credential definition matching `demoSchema`. -/
def demoCredDef : CredentialDefinition :=
  ⟨"sid", "tag", "iss", false, keyGen 3, ["name", "age"]⟩

/-- A concrete credential signed under `demoCredDef`. -/
def demoCredential : Credential :=
  ⟨"sid", "cdid", [("name", "Alice"), ("age", "30")],
    anoncreds_encode_credential_attributes ["Alice", "30"], commitSecret 4 5,
    signMessage 3 (credentialMessage (commitSecret 4 5)
      (anoncreds_encode_credential_attributes ["Alice", "30"]))⟩

/-- The sub-proof of `demoCredential` revealing both attributes. -/
def demoSubProof : SubProof :=
  ⟨"sid", "cdid", demoCredential.attrs, demoCredential.encoded,
    demoCredential.commitment, demoCredential.sig⟩

/-- A concrete presentation over `demoCredential`. -/
def demoPresentation : Presentation := ⟨7, [demoSubProof]⟩

/-- The presentation request `demoPresentation` answers. -/
def demoPresReq : PresentationRequest := ⟨7, ["name", "age"]⟩

/-- The verifier's schema list for the demo run. -/
def demoSchemas : List (String × Schema) := [("sid", demoSchema)]

/-- The verifier's credential-definition list for the demo run. -/
def demoCredDefs : List (String × CredentialDefinition) := [("cdid", demoCredDef)]

/-- A concrete revocation registry definition with capacity 2. -/
def demoRegDef : RevocationRegistryDefinition := ⟨"cd", "tag", 2⟩

/-- A concrete registry snapshot with index 1 issued. -/
def demoReg : RevocationRegistry := ⟨{1}, ∅, accumValue {1} ∅⟩

/-- A concrete handle table holding `demoRegDef` and `demoReg`. -/
def demoStore : Store :=
  [.revocationRegistryDefinition demoRegDef, .revocationRegistry demoReg]

/-! ### Helper lemmas -/

theorem fieldModulus_pos : 0 < fieldModulus := by norm_num [fieldModulus]

theorem foldl_hash_lt (l : List Char) (acc : Nat) (h : acc < fieldModulus) :
    l.foldl (fun a c => (a * 257 + c.toNat + 1) % fieldModulus) acc < fieldModulus := by
  induction l generalizing acc with
  | nil => exact h
  | cons c cs ih => exact ih _ (Nat.mod_lt _ fieldModulus_pos)

theorem hashToField_lt (s : String) : hashToField s < fieldModulus :=
  foldl_hash_lt s.data 7 (by norm_num [fieldModulus])

theorem encodeAttributeValue_lt (raw : String) : encodeAttributeValue raw < fieldModulus := by
  unfold encodeAttributeValue
  cases raw.toNat? with
  | none => exact hashToField_lt raw
  | some n =>
    by_cases h : n < fieldModulus
    · simp only [if_pos h]; exact h
    · simp only [if_neg h]; exact hashToField_lt raw

/-! ### Theorems about the claims -/

/-- C10: every fallible entry point returns an `ErrorCode` drawn from exactly
nine fixed values: `Success = 0`, the eight failure kinds numbered
consecutively `Input = 1` through `RevocationRegistryFull = 8`, no other
value occurs, and a zero return means success. -/
theorem error_code_taxonomy :
    (∀ e : ErrorCode, e.toNat < 9) ∧
    (∀ e : ErrorCode, e.toNat = 0 ↔ e = .Success) ∧
    ErrorCode.Success.toNat = 0 ∧ ErrorCode.Input.toNat = 1 ∧
    ErrorCode.IOError.toNat = 2 ∧ ErrorCode.InvalidState.toNat = 3 ∧
    ErrorCode.Unexpected.toNat = 4 ∧ ErrorCode.CredentialRevoked.toNat = 5 ∧
    ErrorCode.InvalidUserRevocId.toNat = 6 ∧ ErrorCode.ProofRejected.toNat = 7 ∧
    ErrorCode.RevocationRegistryFull.toNat = 8 ∧
    Function.Injective ErrorCode.toNat := by
  refine ⟨?_, ?_, rfl, rfl, rfl, rfl, rfl, rfl, rfl, rfl, rfl, ?_⟩
  · intro e; cases e <;> simp [ErrorCode.toNat]
  · intro e; cases e <;> simp [ErrorCode.toNat]
  · intro a b hab; cases a <;> cases b <;> simp_all [ErrorCode.toNat]

/-- C4: merging revocation registry deltas is associative, and deltas form a
monoid under merge with the no-op delta as the identity. -/
theorem merge_deltas_monoid (d1 d2 d3 d : RevocationRegistryDelta) :
    anoncreds_merge_revocation_registry_deltas
        (anoncreds_merge_revocation_registry_deltas d1 d2) d3 =
      anoncreds_merge_revocation_registry_deltas d1
        (anoncreds_merge_revocation_registry_deltas d2 d3) ∧
    anoncreds_merge_revocation_registry_deltas d emptyDelta = d ∧
    anoncreds_merge_revocation_registry_deltas emptyDelta d = d := by
  refine ⟨?_, ?_, ?_⟩
  · unfold anoncreds_merge_revocation_registry_deltas
    simp only [RevocationRegistryDelta.mk.injEq]
    refine ⟨?_, ?_, ?_⟩
    · ext x
      simp only [Finset.mem_union, Finset.mem_sdiff]
      tauto
    · ext x
      simp only [Finset.mem_union, Finset.mem_sdiff]
      tauto
    · cases d3.accum <;> rfl
  · cases d with
    | mk i r a =>
      unfold anoncreds_merge_revocation_registry_deltas emptyDelta
      simp
  · cases d with
    | mk i r a =>
      unfold anoncreds_merge_revocation_registry_deltas emptyDelta
      simp [Option.or_none]

/-- C2: computing a revocation state incrementally from a prior state (itself
valid for the prior snapshot) and prior snapshot yields a witness identical
to the one computed from scratch against the same target snapshot. -/
theorem revocation_state_incremental_eq_scratch
    (revRegDef : RevocationRegistryDefinition) (oldList target : RevocationRegistry)
    (idx : Nat) (st : RevocationState)
    (h : st = revocationStateFromScratch oldList idx) :
    anoncreds_create_or_update_revocation_state revRegDef target idx
        (some st) (some oldList) =
      anoncreds_create_or_update_revocation_state revRegDef target idx none none := by
  subst h
  unfold anoncreds_create_or_update_revocation_state updateRevocationStateWitness
    revocationStateFromScratch
  simp only [Except.ok.injEq, RevocationState.mk.injEq, true_and]
  ext x
  simp only [Finset.mem_union, Finset.mem_sdiff, Finset.mem_erase]
  tauto

/-- C2 witness: a concrete incremental update (index 2 revoked since the old
snapshot) agrees with the from-scratch computation. -/
theorem revocation_state_incremental_eq_scratch_witness :
    anoncreds_create_or_update_revocation_state ⟨"cd", "t", 5⟩ ⟨{1, 2}, {2}, 0⟩ 1
        (some (revocationStateFromScratch ⟨{1}, ∅, 0⟩ 1)) (some ⟨{1}, ∅, 0⟩) =
      anoncreds_create_or_update_revocation_state ⟨"cd", "t", 5⟩ ⟨{1, 2}, {2}, 0⟩ 1
        none none :=
  revocation_state_incremental_eq_scratch ⟨"cd", "t", 5⟩ ⟨{1}, ∅, 0⟩ ⟨{1, 2}, {2}, 0⟩
    1 _ rfl

/-- C6: schema creation fails with `Input` exactly when the attribute list
exceeds `MAX_ATTRIBUTES_COUNT` (125) or contains duplicates; any schema it
returns has unique attribute names. -/
theorem create_schema_attribute_validation (schemaName schemaVersion issuerId : String)
    (attrs : List String) :
    (anoncreds_create_schema schemaName schemaVersion issuerId attrs = .error .Input ↔
      MAX_ATTRIBUTES_COUNT < attrs.length ∨ ¬ attrs.Nodup) ∧
    ∀ s, anoncreds_create_schema schemaName schemaVersion issuerId attrs = .ok s →
      s.attrNames.Nodup := by
  unfold anoncreds_create_schema
  by_cases h1 : MAX_ATTRIBUTES_COUNT < attrs.length
  · simp [h1]
  · by_cases h2 : attrs.Nodup
    · refine ⟨by simp [h1, h2], ?_⟩
      intro s hs
      simp only [if_neg h1, if_pos h2, Except.ok.injEq] at hs
      rw [← hs]
      exact h2
    · simp [h1, h2]

/-- C6 witness: a two-attribute schema is accepted with unique attribute
names, and a duplicate attribute list is rejected with `Input`. -/
theorem create_schema_attribute_validation_witness :
    (⟨"degree", "1.0", "iss", ["name", "age"]⟩ : Schema).attrNames.Nodup ∧
    anoncreds_create_schema "degree" "1.0" "iss" ["age", "age"] = .error .Input :=
  ⟨(create_schema_attribute_validation "degree" "1.0" "iss" ["name", "age"]).2 _
      rfl,
   (create_schema_attribute_validation "degree" "1.0" "iss" ["age", "age"]).1.mpr
      (.inr (by decide))⟩

/-- C7: attribute encoding is deterministic — two invocations of
`anoncreds_encode_credential_attributes` on the same raw values produce the
same encodings — and every encoding is a field-sized integer. -/
theorem encode_attributes_deterministic (v1 v2 : List String) (h : v1 = v2) :
    anoncreds_encode_credential_attributes v1 =
      anoncreds_encode_credential_attributes v2 ∧
    ∀ x ∈ anoncreds_encode_credential_attributes v1, x < fieldModulus := by
  subst h
  refine ⟨rfl, ?_⟩
  intro x hx
  simp only [anoncreds_encode_credential_attributes, List.mem_map] at hx
  obtain ⟨raw, _, rfl⟩ := hx
  exact encodeAttributeValue_lt raw

/-- C7 witness: two runs of the encoder on the same raw values agree, and a
concrete encoding is field-sized. -/
theorem encode_attributes_deterministic_witness :
    anoncreds_encode_credential_attributes ["Alice", "30"] =
      anoncreds_encode_credential_attributes ["Alice", "30"] ∧
    encodeAttributeValue "Alice" < fieldModulus :=
  ⟨(encode_attributes_deterministic ["Alice", "30"] ["Alice", "30"] rfl).1,
   (encode_attributes_deterministic ["Alice", "30"] ["Alice", "30"] rfl).2 _
      (by simp [anoncreds_encode_credential_attributes])⟩

/-- C5: a batch update bringing the issued count to `maxCredNum` succeeds, one
bringing it to `maxCredNum + 1` fails with `RevocationRegistryFull`, and that
error occurs exactly when issuance would exceed the capacity. -/
theorem update_registry_capacity (store : Store) (hDef hReg : Nat)
    (issued revoked : List Nat) (tailsPath : String)
    (rd : RevocationRegistryDefinition) (reg : RevocationRegistry)
    (hd : store.get? hDef = some (.revocationRegistryDefinition rd))
    (hr : store.get? hReg = some (.revocationRegistry reg)) :
    ((reg.issued ∪ issued.toFinset).card = rd.maxCredNum →
      (anoncreds_update_revocation_registry store hDef hReg issued revoked
          tailsPath).1 = .Success) ∧
    ((reg.issued ∪ issued.toFinset).card = rd.maxCredNum + 1 →
      (anoncreds_update_revocation_registry store hDef hReg issued revoked
          tailsPath).1 = .RevocationRegistryFull) ∧
    ((anoncreds_update_revocation_registry store hDef hReg issued revoked
          tailsPath).1 = .RevocationRegistryFull ↔
      rd.maxCredNum < (reg.issued ∪ issued.toFinset).card) := by
  unfold anoncreds_update_revocation_registry
  rw [hd, hr]
  unfold updateRevocationRegistry
  by_cases h : rd.maxCredNum < (reg.issued ∪ issued.toFinset).card
  · simp only [if_pos h]
    refine ⟨fun hc => absurd h (by omega), fun _ => trivial, ?_⟩
    simp [h]
  · simp only [if_neg h]
    refine ⟨fun _ => trivial, fun hc => absurd hc (by omega), ?_⟩
    simp [h]

/-- C5 witness: with capacity 2 and index 1 already issued, issuing one more
index succeeds while issuing two more fails with `RevocationRegistryFull`. -/
theorem update_registry_capacity_witness :
    (anoncreds_update_revocation_registry demoStore 0 1 [2] [] "tails").1 =
      .Success ∧
    (anoncreds_update_revocation_registry demoStore 0 1 [2, 3] [] "tails").1 =
      .RevocationRegistryFull :=
  ⟨(update_registry_capacity demoStore 0 1 [2] [] "tails" demoRegDef demoReg
      rfl rfl).1 (by decide),
   (update_registry_capacity demoStore 0 1 [2, 3] [] "tails" demoRegDef demoReg
      rfl rfl).2.1 (by decide)⟩

/-- C9: the revocation entry points never mutate existing store entries — every
handle allocated before the call still resolves to the same object after it,
so the caller's input registry coexists with the returned one. -/
theorem revocation_ops_preserve_store (store : Store) (hDef hReg idx : Nat)
    (tailsPath : String) (issued revoked : List Nat) (i : Nat)
    (hi : i < store.length) :
    (anoncreds_revoke_credential store hDef hReg idx tailsPath).2.1.get? i =
      store.get? i ∧
    (anoncreds_update_revocation_registry store hDef hReg issued revoked
        tailsPath).2.1.get? i = store.get? i := by
  constructor
  · unfold anoncreds_revoke_credential
    split
    · split
      · exact List.get?_append hi
      · rfl
    · rfl
  · unfold anoncreds_update_revocation_registry
    split
    · split
      · exact List.get?_append hi
      · rfl
    · rfl

/-- C9 witness: after a concrete revoke and a concrete batch update, handle 1
still resolves to the original registry snapshot. -/
theorem revocation_ops_preserve_store_witness :
    (anoncreds_revoke_credential demoStore 0 1 1 "tails").2.1.get? 1 =
      demoStore.get? 1 ∧
    (anoncreds_update_revocation_registry demoStore 0 1 [2] [] "tails").2.1.get? 1 =
      demoStore.get? 1 :=
  revocation_ops_preserve_store demoStore 0 1 1 "tails" [2] [] 1 (by decide)

theorem verifySubProofs_ok_of_wellformed (schemas : List (String × Schema))
    (credDefs : List (String × CredentialDefinition)) (l : List SubProof)
    (h : ∀ sp ∈ l, (lookupById schemas sp.schemaId).isSome ∧
      (lookupById credDefs sp.credDefId).isSome) :
    (verifySubProofs schemas credDefs l).isOk = true := by
  induction l with
  | nil => rfl
  | cons sp rest ih =>
    obtain ⟨h1, h2⟩ := h sp (List.mem_cons_self sp rest)
    obtain ⟨s, hs⟩ := Option.isSome_iff_exists.mp h1
    obtain ⟨cd, hcd⟩ := Option.isSome_iff_exists.mp h2
    have hrest := ih (fun x hx => h x (List.mem_cons_of_mem _ hx))
    unfold verifySubProofs
    rw [hs, hcd]
    cases hv : verifySubProofs schemas credDefs rest with
    | ok b => rfl
    | error e => rw [hv] at hrest; exact Bool.noConfusion hrest

theorem verifySubProofs_error_input (schemas : List (String × Schema))
    (credDefs : List (String × CredentialDefinition)) (l : List SubProof)
    (e : ErrorCode) (h : verifySubProofs schemas credDefs l = .error e) :
    e = .Input ∧ ¬ ∀ sp ∈ l, (lookupById schemas sp.schemaId).isSome ∧
      (lookupById credDefs sp.credDefId).isSome := by
  induction l with
  | nil => exact absurd h (by simp [verifySubProofs])
  | cons sp rest ih =>
    unfold verifySubProofs at h
    cases hs : lookupById schemas sp.schemaId with
    | none =>
      rw [hs] at h
      injection h with h2
      refine ⟨h2.symm, fun hall => ?_⟩
      have hsome := (hall sp (List.mem_cons_self sp rest)).1
      rw [hs] at hsome
      exact Bool.noConfusion hsome
    | some s =>
      rw [hs] at h
      cases hcd : lookupById credDefs sp.credDefId with
      | none =>
        rw [hcd] at h
        injection h with h2
        refine ⟨h2.symm, fun hall => ?_⟩
        have hsome := (hall sp (List.mem_cons_self sp rest)).2
        rw [hcd] at hsome
        exact Bool.noConfusion hsome
      | some cd =>
        rw [hcd] at h
        cases hv : verifySubProofs schemas credDefs rest with
        | ok b => rw [hv] at h; cases h
        | error e2 =>
          rw [hv] at h
          cases h
          obtain ⟨he, hnall⟩ := ih hv
          exact ⟨he, fun hall =>
            hnall (fun x hx => hall x (List.mem_cons_of_mem _ hx))⟩

/-- C3: on well-formed inputs (all referenced schemas and credential
definitions present) verification returns success with a boolean verdict —a
cryptographic mismatch is a `false` verdict, not an error— and any error
outcome is the `Input` error caused by a malformed (missing-reference)
input. -/
theorem verify_presentation_total_on_wellformed (p : Presentation)
    (req : PresentationRequest) (schemas : List (String × Schema))
    (credDefs : List (String × CredentialDefinition)) :
    (wellFormedVerifierInputs p schemas credDefs →
      (anoncreds_verify_presentation p req schemas credDefs).isOk = true) ∧
    ∀ e, anoncreds_verify_presentation p req schemas credDefs = .error e →
      e = .Input ∧ ¬ wellFormedVerifierInputs p schemas credDefs := by
  constructor
  · intro hwf
    unfold anoncreds_verify_presentation
    have := verifySubProofs_ok_of_wellformed schemas credDefs p.subProofs hwf
    cases hv : verifySubProofs schemas credDefs p.subProofs with
    | ok b => rfl
    | error e => rw [hv] at this; exact Bool.noConfusion this
  · intro e he
    unfold anoncreds_verify_presentation at he
    cases hv : verifySubProofs schemas credDefs p.subProofs with
    | ok b => rw [hv] at he; cases he
    | error e2 =>
      rw [hv] at he
      cases he
      exact verifySubProofs_error_input schemas credDefs p.subProofs e hv

/-- C3 witness: the concrete well-formed demo presentation verifies to a
boolean verdict rather than an error. -/
theorem verify_presentation_total_on_wellformed_witness :
    (anoncreds_verify_presentation demoPresentation demoPresReq demoSchemas
        demoCredDefs).isOk = true :=
  (verify_presentation_total_on_wellformed demoPresentation demoPresReq demoSchemas
      demoCredDefs).1 (by
    intro sp hsp
    simp only [demoPresentation, List.mem_singleton] at hsp
    subst hsp
    exact ⟨by decide, by decide⟩)

theorem strListOfItems_roundtrip (l : List String) :
    strListOfItems (l.map .str) = some l := by
  induction l with
  | nil => rfl
  | cons s rest ih => simp [strListOfItems, ih]

theorem natListOfItems_roundtrip (l : List Nat) :
    natListOfItems (l.map .num) = some l := by
  induction l with
  | nil => rfl
  | cons n rest ih => simp [natListOfItems, ih]

theorem pairListOfItems_roundtrip (l : List (String × String)) :
    pairListOfItems (l.map (fun p => .arr [.str p.1, .str p.2])) = some l := by
  induction l with
  | nil => rfl
  | cons p rest ih => simp [pairListOfItems, ih]

theorem finsetOfJson_roundtrip (s : Finset Nat) :
    finsetOfJson (jsonOfFinset s) = some s := by
  simp [finsetOfJson, jsonOfFinset, jsonOfNatList, natListOfItems_roundtrip,
    Finset.sort_toFinset]

theorem signatureOfJson_roundtrip (sig : Signature) :
    signatureOfJson (jsonOfSignature sig) = some sig := rfl

theorem subProofOfJson_roundtrip (sp : SubProof) :
    subProofOfJson (jsonOfSubProof sp) = some sp := by
  cases sp with
  | mk sid cdid rev enc c sig =>
    simp [subProofOfJson, jsonOfSubProof, jsonOfPairList, jsonOfNatList,
      jsonOfSignature, pairListOfItems_roundtrip, natListOfItems_roundtrip,
      signatureOfJson]

theorem subProofListOfItems_roundtrip (l : List SubProof) :
    subProofListOfItems (l.map jsonOfSubProof) = some l := by
  induction l with
  | nil => rfl
  | cons sp rest ih => simp [subProofListOfItems, subProofOfJson_roundtrip, ih]

theorem objectFromJson_roundtrip (x : AnyObject) :
    objectFromJson (anoncreds_object_get_json x) = some x := by
  cases x with
  | schema s =>
    cases s with
    | mk n v iss attrs =>
      simp [anoncreds_object_get_json, objectFromJson, decodeSchema, jsonOfStrList,
        strListOfItems_roundtrip]
  | credentialDefinition cd =>
    cases cd with
    | mk sid tag iss rev pk attrs =>
      cases rev <;>
        simp [anoncreds_object_get_json, objectFromJson, decodeCredDef, jsonOfStrList,
          strListOfItems_roundtrip]
  | credentialDefinitionPrivate cdp =>
    cases cdp
    simp [anoncreds_object_get_json, objectFromJson, decodeCredDefPriv]
  | keyCorrectnessProof kp =>
    cases kp
    simp [anoncreds_object_get_json, objectFromJson, decodeKeyProof]
  | credentialOffer o =>
    cases o
    simp [anoncreds_object_get_json, objectFromJson, decodeCredOffer]
  | masterSecret ms =>
    cases ms
    simp [anoncreds_object_get_json, objectFromJson, decodeMasterSecret]
  | credentialRequest r =>
    cases r
    simp [anoncreds_object_get_json, objectFromJson, decodeCredReq]
  | credentialRequestMetadata m =>
    cases m
    simp [anoncreds_object_get_json, objectFromJson, decodeCredReqMeta]
  | credential c =>
    cases c with
    | mk sid cdid attrs enc c sig =>
      simp [anoncreds_object_get_json, objectFromJson, decodeCredential,
        jsonOfPairList, jsonOfNatList, jsonOfSignature, pairListOfItems_roundtrip,
        natListOfItems_roundtrip, signatureOfJson]
  | presentationRequest pr =>
    cases pr with
    | mk nonce attrs =>
      simp [anoncreds_object_get_json, objectFromJson, decodePresReq, jsonOfStrList,
        strListOfItems_roundtrip]
  | presentation pres =>
    cases pres with
    | mk nonce sps =>
      simp [anoncreds_object_get_json, objectFromJson, decodePresentation,
        subProofListOfItems_roundtrip]
  | revocationRegistryDefinition rd =>
    cases rd
    simp [anoncreds_object_get_json, objectFromJson, decodeRevRegDef]
  | revocationRegistry r =>
    cases r with
    | mk iss rev a =>
      simp [anoncreds_object_get_json, objectFromJson, decodeRevReg,
        finsetOfJson_roundtrip]
  | revocationRegistryDelta d =>
    cases d with
    | mk iss rev a =>
      cases a <;>
        simp [anoncreds_object_get_json, objectFromJson, decodeRevRegDelta,
          finsetOfJson_roundtrip]
  | revocationState st =>
    cases st with
    | mk i w =>
      simp [anoncreds_object_get_json, objectFromJson, decodeRevState,
        finsetOfJson_roundtrip]

/-- C8: serializing any entity to its canonical JSON exchange format and
parsing it back yields the object unchanged (hence with the same public
values), and a round-tripped presentation behaves identically to the
original under verification. -/
theorem object_json_roundtrip (o : AnyObject) (p p2 : Presentation)
    (req : PresentationRequest) (schemas : List (String × Schema))
    (credDefs : List (String × CredentialDefinition)) :
    objectFromJson (anoncreds_object_get_json o) = some o ∧
    (objectFromJson (anoncreds_object_get_json (.presentation p)) =
        some (.presentation p2) →
      anoncreds_verify_presentation p2 req schemas credDefs =
        anoncreds_verify_presentation p req schemas credDefs) := by
  refine ⟨objectFromJson_roundtrip o, fun h => ?_⟩
  have h2 := objectFromJson_roundtrip (.presentation p)
  rw [h] at h2
  cases h2
  rfl

/-- C8 witness: a concrete master secret round-trips through the JSON
exchange format, and the round-tripped demo presentation verifies exactly as
the original does. -/
theorem object_json_roundtrip_witness :
    objectFromJson (anoncreds_object_get_json (.masterSecret ⟨7⟩)) =
      some (.masterSecret ⟨7⟩) ∧
    anoncreds_verify_presentation demoPresentation demoPresReq demoSchemas
        demoCredDefs =
      anoncreds_verify_presentation demoPresentation demoPresReq demoSchemas
        demoCredDefs :=
  ⟨(object_json_roundtrip (.masterSecret ⟨7⟩) demoPresentation demoPresentation
      demoPresReq demoSchemas demoCredDefs).1,
   (object_json_roundtrip (.masterSecret ⟨7⟩) demoPresentation demoPresentation
      demoPresReq demoSchemas demoCredDefs).2
      (objectFromJson_roundtrip (.presentation demoPresentation))⟩

theorem ok_bind {α β : Type} (a : α) (f : α → Except ErrorCode β) :
    (Except.ok a : Except ErrorCode α) >>= f = f a := rfl

theorem zip_any_fst (names : List String) : ∀ (vals : List String) (n : String),
    n ∈ names → vals.length = names.length →
    (names.zip vals).any (fun p => p.1 == n) = true := by
  induction names with
  | nil => intro vals n hn h; cases hn
  | cons m ms ih =>
    intro vals n hn hlen
    cases vals with
    | nil => simp at hlen
    | cons v vs =>
      simp only [List.zip_cons_cons, List.any_cons, Bool.or_eq_true]
      rcases List.mem_cons.mp hn with h | h
      · left; subst h; simp
      · right; exact ih vs n h (by simpa using hlen)

theorem all_attrs_covered (names vals : List String)
    (hlen : vals.length = names.length) :
    names.all (fun n => (names.zip vals).any (fun p => p.1 == n)) = true := by
  rw [List.all_eq_true]
  intro n hn
  exact zip_any_fst names vals n hn hlen

theorem zip_filter_contains (names vals : List String) :
    (names.zip vals).filter (fun p => names.contains p.1) = names.zip vals :=
  List.filter_eq_self.mpr (fun p hp => List.elem_iff.mpr (List.of_mem_zip hp).1)

theorem zip_get_components (names vals : List String) (i : Nat) (p : String × String)
    (h : (names.zip vals).get? i = some p) :
    names.get? i = some p.1 ∧ vals.get? i = some p.2 := by
  induction names generalizing vals i with
  | nil => simp [List.zip] at h
  | cons m ms ih =>
    cases vals with
    | nil => simp at h
    | cons v vs =>
      cases i with
      | zero =>
        simp only [List.zip_cons_cons, List.get?] at h
        cases h
        exact ⟨rfl, rfl⟩
      | succ j =>
        simp only [List.zip_cons_cons, List.get?] at h
        exact ih vs j h

theorem firstIdx_of_get (names : List String) (hnodup : names.Nodup) (i : Nat)
    (m : String) (h : names.get? i = some m) : firstIdx names m = some i := by
  induction names generalizing i with
  | nil => simp at h
  | cons n ns ih =>
    cases i with
    | zero =>
      simp only [List.get?] at h
      cases h
      simp [firstIdx]
    | succ j =>
      simp only [List.get?] at h
      have hm : m ∈ ns := List.get?_mem h
      have hne : n ≠ m := by
        intro he
        subst he
        exact (List.nodup_cons.mp hnodup).1 hm
      simp [firstIdx, hne, ih (List.nodup_cons.mp hnodup).2 j h]

theorem checkRevealed_zip (names vals : List String) (hnodup : names.Nodup)
    (hlen : vals.length = names.length) :
    checkRevealed names (vals.map encodeAttributeValue) (names.zip vals) = true := by
  rw [checkRevealed, List.all_eq_true]
  intro p hp
  obtain ⟨i, hi⟩ := List.mem_iff_get?.mp hp
  obtain ⟨h1, h2⟩ := zip_get_components names vals i p hi
  rw [firstIdx_of_get names hnodup i p.1 h1]
  have h3 : (vals.map encodeAttributeValue).get? i =
      some (encodeAttributeValue p.2) := by
    rw [List.get?_map, h2]
    rfl
  show ((vals.map encodeAttributeValue).get? i ==
    some (encodeAttributeValue p.2)) = true
  rw [h3]
  exact beq_self_eq_true _

/-- C1: the composed pipeline — issuer creates the credential, holder
processes it, holder builds a presentation revealing all attributes,
verifier checks it — accepts, and the revealed attribute values equal the
raw values supplied at issuance, for every valid schema and matching
attribute-value assignment. -/
theorem pipeline_accepts_and_reveals
    (schemaName schemaVersion issuerId schemaId credDefId tag msId proverDid : String)
    (attrNames attrVals : List String)
    (issuerSeed msSeed blindSeed offerNonce presNonce : Nat)
    (hnodup : attrNames.Nodup) (hcount : attrNames.length ≤ MAX_ATTRIBUTES_COUNT)
    (hlen : attrVals.length = attrNames.length) :
    honestPipeline schemaName schemaVersion issuerId schemaId credDefId tag msId
      proverDid attrNames attrVals issuerSeed msSeed blindSeed offerNonce presNonce =
      .ok (true, [attrNames.zip attrVals]) := by
  have hs : anoncreds_create_schema schemaName schemaVersion issuerId attrNames =
      .ok ⟨schemaName, schemaVersion, issuerId, attrNames⟩ := by
    unfold anoncreds_create_schema
    rw [if_neg (Nat.not_lt.mpr hcount), if_pos hnodup]
  unfold honestPipeline
  rw [hs]
  simp only [ok_bind, anoncreds_create_credential_definition,
    anoncreds_create_credential_offer, anoncreds_create_master_secret,
    anoncreds_create_credential_request]
  simp only [anoncreds_create_credential]
  rw [if_neg (not_not_intro (rfl : attrNames = attrNames)),
    if_neg (not_not_intro hlen)]
  simp only [ok_bind, anoncreds_process_credential]
  rw [if_neg (not_not_intro rfl)]
  rw [if_neg (show ¬ ((false : Bool) = true ∧ ¬ (false : Bool) = true) by simp)]
  simp only [ok_bind, anoncreds_create_presentation, List.any_cons, List.any_nil,
    Bool.or_false]
  rw [if_pos (show _ = true from all_attrs_covered attrNames attrVals hlen)]
  simp only [ok_bind, anoncreds_verify_presentation, verifySubProofs, lookupById,
    List.find?, beq_self_eq_true, Option.map_some, checkSubProof, checkSignature,
    signMessage, zip_filter_contains, anoncreds_encode_credential_attributes,
    List.map_cons, List.map_nil]
  simp [checkRevealed_zip attrNames attrVals hnodup hlen, zip_filter_contains]

/-- C1 witness: a concrete two-attribute run of the pipeline is accepted and
reveals exactly the issued raw values. -/
theorem pipeline_accepts_and_reveals_witness :
    honestPipeline "degree" "1.0" "iss" "sid" "cdid" "tag" "ms1" "did"
      ["name", "age"] ["Alice", "30"] 3 4 5 6 7 =
      .ok (true, [[("name", "Alice"), ("age", "30")]]) :=
  pipeline_accepts_and_reveals "degree" "1.0" "iss" "sid" "cdid" "tag" "ms1" "did"
    ["name", "age"] ["Alice", "30"] 3 4 5 6 7 (by decide) (by decide) (by decide)

/-- C10 witness: the boundary values of the taxonomy evaluated concretely. -/
theorem error_code_taxonomy_witness :
    ErrorCode.RevocationRegistryFull.toNat = 8 ∧ ErrorCode.Success.toNat = 0 :=
  ⟨error_code_taxonomy.2.2.2.2.2.2.2.2.2.2.1, error_code_taxonomy.2.2.1⟩

/-- C4 witness: merging a concrete delta with the no-op delta returns it
unchanged. -/
theorem merge_deltas_monoid_witness :
    anoncreds_merge_revocation_registry_deltas ⟨{1}, {2}, some 5⟩ emptyDelta =
      ⟨{1}, {2}, some 5⟩ :=
  (merge_deltas_monoid emptyDelta emptyDelta emptyDelta ⟨{1}, {2}, some 5⟩).2.1

end AnonCreds
